import Mathlib

/-!
# Verification of `lochness/box/__init__.py`

A shallow embedding of the box sync module: the `save` / `_save` /
`_savetemp` verified-download pipeline, the `hash_retry` decorator, the
`_delete` remote-deletion helper, the `delete_on_success` configuration
reader and the `walk_from_folder_object` tree walk.

Modelling conventions:
* Local filesystem state is `FS`: an association list of file paths to
  byte contents plus a list of existing directories.  Bytes are `List Nat`.
* Each embedded operation returns the list of side `Effect`s it performs
  (in order) together with its Python return value, where exceptions are
  the `.error` case of `Except PyExc`.  All filesystem reads made by
  `save` happen before its first effect, so the effect trace together
  with the initial state determines the final state, computed by
  `FS.applyEffects`.
* `gzip.GzipFile` compression and `cryptease.encrypt` are opaque
  library transformations: they are parameters of the model (`Env`).
* The temporary names chosen by `tempfile.NamedTemporaryFile` are
  modelled by a `tok : Nat → String` argument giving the random part of
  the name picked on each download attempt.
-/

/-- Bytes of a file, as in Python `bytes`. -/
abbrev Bytes := List Nat

/-- A cryptease encryption key object (`key` argument of `save`).  The
Python code only tests it for truthiness (`if key:`, true for any key
object) and passes it to `crypt.encrypt`; an absent key is `none`. -/
abbrev Key := String

/-- Opaque external library transformations used by `_save`/`_savetemp`:
`gzip` is the byte transformation performed by `gzip.GzipFile(...,'wb')`,
`encrypt` is `cryptease.encrypt(content, key, chunk_size)`. -/
structure Env where
  gzip : Bytes → Bytes
  encrypt : Bytes → Key → Nat → Bytes

/-- `CHUNK_SIZE = 1024` from the source. -/
def CHUNK_SIZE : Nat := 1024

/-- Python exceptions that flow through this module.
`dropboxApiError` is `dropbox.exceptions.ApiError`, carrying the two
predicates the code tests (`e.error.is_path()` and
`e.error.get_path().is_not_found()`); `boxAPIException` is
`boxsdk.BoxAPIException` with its HTTP status (the exception the box
SDK actually raises); the remaining constructors are the classes
defined in the module itself. -/
inductive PyExc where
  | dropboxApiError (isPath : Bool) (isNotFound : Bool)
  | boxAPIException (status : Nat)
  | boxHashError (message : String) (filename : String)
  | hashRetryError
  | downloadError (message : String)
  | deletionError (message : String)
deriving Repr, DecidableEq

/-- A remote box file handle: the outcomes of its `.content()` and
`.delete()` calls. -/
structure BoxFile where
  content : Except PyExc Bytes
  deleteResult : Except PyExc Unit

/-- Side effects performed by the module, in program order. -/
inductive Effect where
  | fetchContent (remotePath : String)
  | mkdirs (dir : String)
  | createTemp (path : String)
  | writeTemp (path : String) (bytes : Bytes)
  | fsync (path : String)
  | chmod (path : String) (mode : Nat)
  | rename (src : String) (dst : String)
  | removeFile (path : String)
  | deleteRemote (remotePath : String)
deriving Repr, DecidableEq

/-- Python `s.startswith(pre)`. -/
def strStartsWith (s pre : String) : Bool :=
  pre.toList.isPrefixOf s.toList

/-- Python `s.endswith(suf)`. -/
def strEndsWith (s suf : String) : Bool :=
  suf.toList.reverse.isPrefixOf s.toList.reverse

/-- `os.path.join` for two POSIX components. -/
def pathJoin (a b : String) : String :=
  if strStartsWith b "/" then b
  else if a = "" || strEndsWith a "/" then a ++ b
  else a ++ "/" ++ b

/-- `os.path.dirname` for POSIX paths: the part before the last `/`,
with trailing slashes stripped unless it is all slashes. -/
def dirname (p : String) : String :=
  let afterSlash := p.toList.reverse.dropWhile (fun c => c != '/')
  if afterSlash.isEmpty then ""
  else if afterSlash.all (fun c => c == '/') then String.mk afterSlash.reverse
  else String.mk ((afterSlash.dropWhile (fun c => c == '/')).reverse)

/-- Local filesystem state: file contents and existing directories. -/
structure FS where
  files : List (String × Bytes)
  dirs : List String
deriving Repr, DecidableEq

/-- `os.path.exists`: true for an existing file or directory. -/
def FS.pathExists (fs : FS) (p : String) : Bool :=
  (fs.files.lookup p).isSome || fs.dirs.contains p

/-- The chain of directories `os.makedirs` creates: the path and its
ancestors (fuel-bounded recursion on `dirname`). -/
def mkdirChain : Nat → String → List String
  | 0, _ => []
  | fuel + 1, p =>
    if p = "" then []
    else if dirname p = p then [p]
    else p :: mkdirChain fuel (dirname p)

/-- `os.makedirs(p)`. -/
def FS.makedirs (fs : FS) (p : String) : FS :=
  { fs with dirs := mkdirChain (p.length + 1) p ++ fs.dirs }

/-- Create or overwrite the file at `p` with bytes `bs`. -/
def FS.setFile (fs : FS) (p : String) (bs : Bytes) : FS :=
  { fs with files := (p, bs) :: fs.files.filter (fun kv => kv.1 != p) }

/-- `os.remove(p)`. -/
def FS.removeFile (fs : FS) (p : String) : FS :=
  { fs with files := fs.files.filter (fun kv => kv.1 != p) }

/-- `os.rename(src, dst)`. -/
def FS.renameFile (fs : FS) (src dst : String) : FS :=
  match fs.files.lookup src with
  | some c => (fs.removeFile src).setFile dst c
  | none => fs

/-- Replay one effect against a filesystem state. -/
def FS.applyEffect (fs : FS) : Effect → FS
  | .fetchContent _ => fs
  | .mkdirs d => fs.makedirs d
  | .createTemp p => fs.setFile p []
  | .writeTemp p bs => fs.setFile p bs
  | .fsync _ => fs
  | .chmod _ _ => fs
  | .rename src dst => fs.renameFile src dst
  | .removeFile p => fs.removeFile p
  | .deleteRemote _ => fs

/-- Replay a trace of effects, in order. -/
def FS.applyEffects (fs : FS) (l : List Effect) : FS :=
  l.foldl FS.applyEffect fs

/-- The name `tempfile.NamedTemporaryFile(dir=dirname, prefix='.')`
produces, given the random token the OS picked. -/
def tempName (dirname0 : String) (tok : String) : String :=
  pathJoin (if dirname0 = "" then "/tmp" else dirname0) ("." ++ tok)

/-- `_savetemp(content, dirname, compress)`: create a dot-prefixed
temporary file in `dirname` (or the system temp dir when `dirname` is
empty/None), write the (optionally gzip-compressed) content, flush,
fsync and close it; return its name. -/
def _savetemp (env : Env) (content : Bytes) (dirname0 : String)
    (compress : Bool) (tok : String) : List Effect × String :=
  let name := tempName dirname0 tok
  let bytes := if compress then env.gzip content else content
  ([Effect.createTemp name, Effect.writeTemp name bytes, Effect.fsync name], name)

/-- The body of `_save` (the function wrapped by `@hash_retry(3)`):
fetch the remote content, translate a dropbox path-not-found ApiError
into a DownloadError, re-raise any other exception; then write the raw
content to a temp file (the cryptease stream is computed but unused),
chmod it to 0644 and rename it onto `localFullfile`. -/
def saveBody (env : Env) (bf : BoxFile) (boxFullpath localFullfile : String)
    (key : Option Key) (compress : Bool) (tok : String) :
    List Effect × Except PyExc Unit :=
  match bf.content with
  | .error e =>
    ([Effect.fetchContent boxFullpath],
     match e with
     | .dropboxApiError isPath isNotFound =>
       if isPath && isNotFound then
         .error (.downloadError ("error downloading file " ++ boxFullpath))
       else
         .error (.dropboxApiError isPath isNotFound)
     | e => .error e)
  | .ok content =>
    let localDirname := dirname localFullfile
    match key with
    | some k =>
      let _stream := env.encrypt content k CHUNK_SIZE
      let st := _savetemp env content localDirname compress tok
      (Effect.fetchContent boxFullpath :: st.1
         ++ [Effect.chmod st.2 0o644, Effect.rename st.2 localFullfile],
       .ok ())
    | none =>
      let st := _savetemp env content localDirname compress tok
      (Effect.fetchContent boxFullpath :: st.1
         ++ [Effect.chmod st.2 0o644, Effect.rename st.2 localFullfile],
       .ok ())

/-- The loop of the `hash_retry(n)` decorator, with `fuel` remaining
attempts (`fuel = n - attempts + 1`).  `op a` is the wrapped call on
attempt number `a`; on a `BoxHashError` the temp file named in the
error is removed and the call retried; any other outcome is returned
as is; when attempts are exhausted a `HashRetryError` is raised. -/
def hashRetryGo (op : Nat → List Effect × Except PyExc Unit) :
    Nat → Nat → List Effect × Except PyExc Unit
  | 0, _ => ([], .error .hashRetryError)
  | fuel + 1, attempt =>
    match op attempt with
    | (tr, .error (.boxHashError _ fname)) =>
      let rest := hashRetryGo op fuel (attempt + 1)
      (tr ++ Effect.removeFile fname :: rest.1, rest.2)
    | (tr, r) => (tr, r)

/-- `hash_retry(n)` applied to a wrapped call: attempts are numbered
from 1 and at most `n` are made. -/
def hash_retry (n : Nat) (op : Nat → List Effect × Except PyExc Unit) :
    List Effect × Except PyExc Unit :=
  hashRetryGo op n 1

/-- `_save = hash_retry(3)(saveBody)`. -/
def _save (env : Env) (bf : BoxFile) (boxFullpath localFullfile : String)
    (key : Option Key) (compress : Bool) (tok : Nat → String) :
    List Effect × Except PyExc Unit :=
  hash_retry 3 (fun attempt =>
    saveBody env bf boxFullpath localFullfile key compress (tok attempt))

/-- `_delete(box_file_object, box_fullpath)`: issue the remote delete;
a `dropbox.exceptions.ApiError` is translated into a `DeletionError`
naming the path; any other exception propagates. -/
def _delete (bf : BoxFile) (boxFullpath : String) :
    List Effect × Except PyExc Unit :=
  ([Effect.deleteRemote boxFullpath],
   match bf.deleteResult with
   | .ok _ => .ok ()
   | .error (.dropboxApiError _ _) =>
     .error (.deletionError ("error deleting file " ++ boxFullpath))
   | .error e => .error e)

/-- The extension computed by `save`:
`ext = '.lock' if key else ''; ext = ext + '.gz' if compress else ext`. -/
def saveExt (key : Option Key) (compress : Bool) : String :=
  let ext := if key.isSome then ".lock" else ""
  if compress then ext ++ ".gz" else ext

/-- `local_fullfile = os.path.join(out_base, box_path_name + ext)`. -/
def localDest (outBase boxPathName : String) (key : Option Key)
    (compress : Bool) : String :=
  pathJoin outBase (boxPathName ++ saveExt key compress)

/-- `save(box_file_object, box_path_tuple, out_base, key, compress,
delete, dry)` evaluated against the local filesystem `fs`: skip if the
destination exists; otherwise create its directory if missing; stop if
dry; otherwise run `_save`, then `_delete` if requested, translating a
`HashRetryError` into a `DownloadError` naming the remote path. -/
def save (env : Env) (bf : BoxFile) (boxPathTuple : String × String)
    (outBase : String) (key : Option Key) (compress delete dry : Bool)
    (tok : Nat → String) (fs : FS) : List Effect × Except PyExc Unit :=
  let boxFullpath := pathJoin boxPathTuple.1 boxPathTuple.2
  let localFullfile := localDest outBase boxPathTuple.2 key compress
  if fs.pathExists localFullfile then ([], .ok ())
  else
    let localDirname := dirname localFullfile
    let mkTr := if fs.pathExists localDirname then ([] : List Effect)
                else [Effect.mkdirs localDirname]
    if dry then (mkTr, .ok ())
    else
      match _save env bf boxFullpath localFullfile key compress tok with
      | (tr, .ok _) =>
        if delete then
          let d := _delete bf boxFullpath
          (mkTr ++ tr ++ d.1, d.2)
        else (mkTr ++ tr, .ok ())
      | (tr, .error .hashRetryError) =>
        (mkTr ++ tr,
         .error (.downloadError ("too many failed attempts downloading " ++ boxFullpath)))
      | (tr, .error e) => (mkTr ++ tr, .error e)

/-- A Python configuration value, as found in the Lochness config. -/
inductive PyVal where
  | pybool (b : Bool)
  | pystr (s : String)
  | pyint (n : Int)
  | pynone
  | pydict (entries : List (String × PyVal))

/-- Python `d.get(k, default)` on a dict represented as an association
list. -/
def dictGetD (d : List (String × PyVal)) (k : String) (dflt : PyVal) : PyVal :=
  match d.lookup k with
  | some v => v
  | none => dflt

/-- Python `v.get(k, default)` on an arbitrary value: only dicts have a
`.get` method — anything else raises AttributeError, modelled as `none`. -/
def PyVal.getD (v : PyVal) (k : String) (dflt : PyVal) : Option PyVal :=
  match v with
  | .pydict d => some (dictGetD d k dflt)
  | _ => none

/-- `delete_on_success(Lochness, module_name)`:
`Lochness.get('box', {}).get(module_name, {}).get('delete_on_success', False)`,
coerced to `False` unless it is literally a boolean.  `none` models an
AttributeError from a non-dict intermediate value. -/
def delete_on_success (lochness : List (String × PyVal))
    (moduleName : String) : Option Bool :=
  match (dictGetD lochness "box" (.pydict [])).getD moduleName (.pydict []) with
  | none => none
  | some modConf =>
    match modConf.getD "delete_on_success" (.pybool false) with
    | none => none
    | some value =>
      some (match value with
            | .pybool b => b
            | _ => false)

/-- The raw configured `delete_on_success` entry for a module, when the
configuration shape allows the chain of `.get` calls: `none` when the
entry is absent or the chain cannot be followed. -/
def configuredDeleteValue (lochness : List (String × PyVal))
    (moduleName : String) : Option PyVal :=
  match dictGetD lochness "box" (.pydict []) with
  | .pydict modules =>
    match dictGetD modules moduleName (.pydict []) with
    | .pydict conf => conf.lookup "delete_on_success"
    | _ => none
  | _ => none

/-- A remote box item as seen through the provider listing interface:
`.type` is `folder` or `file`, `.name` is its name, and a folder's
`.get_items()` returns its children in listing order. -/
inductive BoxItem where
  | folder (name : String) (children : List BoxItem)
  | file (name : String)
deriving Repr

/-- `.name` of an item. -/
def BoxItem.name : BoxItem → String
  | .folder n _ => n
  | .file n => n

/-- `.get_items()` of an item (only ever called on folders). -/
def BoxItem.getItems : BoxItem → List BoxItem
  | .folder _ children => children
  | .file _ => []

/-- The partition loop at the top of `walk_from_folder_object`:
append each listed child to `box_folder_objects` when its `.type` is
`'folder'`, to `box_file_objects` otherwise, preserving listing order. -/
def collectItems : List BoxItem → List BoxItem × List BoxItem
  | [] => ([], [])
  | x :: xs =>
    let rest := collectItems xs
    match x with
    | .folder n children => (.folder n children :: rest.1, rest.2)
    | .file n => (rest.1, .file n :: rest.2)

/-- Every element of the folder part of the partition is a listed child. -/
theorem mem_collectItems_fst {x : BoxItem} :
    ∀ {l : List BoxItem}, x ∈ (collectItems l).1 → x ∈ l := by
  intro l
  induction l with
  | nil => simp [collectItems]
  | cons y ys ih =>
    cases y with
    | folder n children =>
      simp only [collectItems, List.mem_cons]
      rintro (rfl | h)
      · exact Or.inl rfl
      · exact Or.inr (ih h)
    | file n =>
      simp only [collectItems]
      intro h
      exact List.mem_cons_of_mem _ (ih h)

/-- The folder part of the partition is no larger than the listing. -/
theorem sizeOf_collectItems_fst :
    ∀ l : List BoxItem, sizeOf (collectItems l).1 ≤ sizeOf l := by
  intro l
  induction l with
  | nil => simp [collectItems]
  | cons x xs ih =>
    cases x with
    | folder n children => simp [collectItems]; omega
    | file n => simp [collectItems]; omega

/-- A string is never of size zero (used for termination of the walk). -/
theorem string_sizeOf_pos (s : String) : 0 < sizeOf s := by
  cases s; simp

mutual
/-- `walk_from_folder_object(root, box_folder_object)`, flattened to
the list of yielded triples: partition the children, yield
`(root, subfolders, files)` first, then splice in the walk of each
subfolder under `root/<name>` in listing order. -/
def walk_from_folder_object (root : String) (boxFolderObject : BoxItem) :
    List (String × List BoxItem × List BoxItem) :=
  let parts := collectItems boxFolderObject.getItems
  (root, parts.1, parts.2) :: walkSubfolders root parts.1
termination_by sizeOf boxFolderObject
decreasing_by
  simp_wf
  have h := sizeOf_collectItems_fst boxFolderObject.getItems
  have hs := string_sizeOf_pos boxFolderObject.name
  cases boxFolderObject with
  | folder n children =>
    simp [BoxItem.getItems] at h ⊢
    simp [BoxItem.name] at hs
    omega
  | file n =>
    simp [BoxItem.getItems, collectItems] at h ⊢
    simp [BoxItem.name] at hs
    omega

/-- The trailing loop of `walk_from_folder_object`: for each subfolder
in order, yield everything `walk_from_folder_object` yields for it
rooted at `os.path.join(root, name)`. -/
def walkSubfolders (root : String) (subs : List BoxItem) :
    List (String × List BoxItem × List BoxItem) :=
  match subs with
  | [] => []
  | boxDirObject :: rest =>
    walk_from_folder_object (pathJoin root boxDirObject.name) boxDirObject
      ++ walkSubfolders root rest
termination_by sizeOf subs
decreasing_by
  all_goals simp_wf
  all_goals omega
end

/-! ## Helper lemmas about the filesystem model -/

theorem lookup_filterKey_ne (l : List (String × Bytes)) (p q : String)
    (h : q ≠ p) :
    (l.filter (fun kv => kv.1 != p)).lookup q = l.lookup q := by
  induction l with
  | nil => rfl
  | cons kv rest ih =>
    by_cases hk : kv.1 = p
    · subst hk
      simp only [List.filter_cons, bne_self_eq_false, List.lookup]
      rw [if_neg (by simp [bne_self_eq_false])]
      have : (q == kv.1) = false := by
        simp only [beq_eq_false_iff_ne, ne_eq]
        exact h
      simp [List.lookup, this, ih]
    · have : (kv.1 != p) = true := by simp [bne_iff_ne]; exact hk
      simp only [List.filter_cons, this, if_pos]
      by_cases hq : q = kv.1
      · subst hq
        simp [List.lookup]
      · have hqb : (q == kv.1) = false := by simp [beq_eq_false_iff_ne]; exact hq
        simp [List.lookup, hqb, ih]

theorem lookup_filterKey_self (l : List (String × Bytes)) (p : String) :
    (l.filter (fun kv => kv.1 != p)).lookup p = none := by
  induction l with
  | nil => rfl
  | cons kv rest ih =>
    by_cases hk : kv.1 = p
    · subst hk
      simp [List.filter_cons, bne_self_eq_false, ih]
    · have : (kv.1 != p) = true := by simp [bne_iff_ne]; exact hk
      have hpb : (p == kv.1) = false := by
        simp [beq_eq_false_iff_ne]
        exact fun hping => hk hping.symm
      simp [List.filter_cons, this, List.lookup, hpb, ih]

theorem FS.lookup_setFile_self (fs : FS) (p : String) (bs : Bytes) :
    (fs.setFile p bs).files.lookup p = some bs := by
  simp [FS.setFile, List.lookup]

theorem FS.lookup_setFile_ne (fs : FS) (p q : String) (bs : Bytes)
    (h : q ≠ p) :
    (fs.setFile p bs).files.lookup q = fs.files.lookup q := by
  have hqb : (q == p) = false := by simp [beq_eq_false_iff_ne]; exact h
  simp [FS.setFile, List.lookup, hqb, lookup_filterKey_ne _ _ _ h]

theorem FS.lookup_removeFile_self (fs : FS) (p : String) :
    (fs.removeFile p).files.lookup p = none := by
  simp [FS.removeFile, lookup_filterKey_self]

theorem FS.lookup_removeFile_ne (fs : FS) (p q : String) (h : q ≠ p) :
    (fs.removeFile p).files.lookup q = fs.files.lookup q := by
  simp [FS.removeFile, lookup_filterKey_ne _ _ _ h]

theorem FS.files_makedirs (fs : FS) (d : String) :
    (fs.makedirs d).files = fs.files := rfl

theorem FS.applyEffects_append (fs : FS) (l₁ l₂ : List Effect) :
    fs.applyEffects (l₁ ++ l₂) = (fs.applyEffects l₁).applyEffects l₂ := by
  simp [FS.applyEffects, List.foldl_append]

theorem FS.applyEffects_nil (fs : FS) : fs.applyEffects [] = fs := rfl

theorem FS.applyEffects_cons (fs : FS) (e : Effect) (l : List Effect) :
    fs.applyEffects (e :: l) = (fs.applyEffect e).applyEffects l := rfl

/-! ## Lemmas about the tree walk -/

/-- `.type == 'folder'` for a listed item. -/
def BoxItem.isFolder : BoxItem → Bool
  | .folder _ _ => true
  | .file _ => false

theorem collectItems_eq_filter (l : List BoxItem) :
    collectItems l =
      (l.filter (fun i => i.isFolder), l.filter (fun i => !i.isFolder)) := by
  induction l with
  | nil => rfl
  | cons x xs ih =>
    cases x with
    | folder n children => simp [collectItems, ih, List.filter_cons, BoxItem.isFolder]
    | file n => simp [collectItems, ih, List.filter_cons, BoxItem.isFolder]

theorem walkSubfolders_eq_join (root : String) (l : List BoxItem) :
    walkSubfolders root l =
      (l.map (fun sub => walk_from_folder_object (pathJoin root sub.name) sub)).flatten := by
  induction l with
  | nil => simp [walkSubfolders]
  | cons c rest ih => simp [walkSubfolders, ih]

theorem walk_unfold (root : String) (obj : BoxItem) :
    walk_from_folder_object root obj =
      (root, (collectItems obj.getItems).1, (collectItems obj.getItems).2)
        :: walkSubfolders root (collectItems obj.getItems).1 := by
  rw [walk_from_folder_object]

/-! ## Claims -/

/-- **C5.** Local destination extension rule: the local path computed by
`save` is `join(out_base, box_path_name + ext)`, where the extension is
`.lock` exactly when an encryption key is supplied, followed by `.gz`
exactly when `compress` is true (so `.lock` always precedes `.gz`); in
particular a supplied key with `compress=True` yields `<name>.lock.gz`
and no key with `compress=False` yields `<name>` unchanged. -/
theorem C5_extension_rule :
    (∀ (key : Option Key) (compress : Bool),
      saveExt key compress =
        (if key.isSome then ".lock" else "") ++ (if compress then ".gz" else "")) ∧
    saveExt none false = "" ∧
    (∀ k : Key, saveExt (some k) false = ".lock") ∧
    saveExt none true = ".gz" ∧
    (∀ k : Key, saveExt (some k) true = ".lock.gz") ∧
    (∀ (outBase name : String) (key : Option Key) (compress : Bool),
      localDest outBase name key compress =
        pathJoin outBase (name ++ saveExt key compress)) ∧
    (∀ (outBase name : String) (k : Key),
      localDest outBase name (some k) true = pathJoin outBase (name ++ ".lock.gz")) ∧
    (∀ outBase name : String,
      localDest outBase name none false = pathJoin outBase name) := by
  refine ⟨?_, rfl, fun _ => rfl, rfl, fun _ => rfl, fun _ _ _ _ => rfl, fun _ _ _ => rfl, ?_⟩
  · rintro (_ | k) compress <;> cases compress <;> rfl
  · intro outBase name
    show pathJoin outBase (name ++ "") = pathJoin outBase name
    simp

/-- **C6.** The tree walk is pre-order depth-first: each folder's
listing is partitioned (in listing order) into subfolders and files by
a single listing call, the triple `(root, subfolders, files)` is
yielded before descending, and each subfolder's entire nested walk
(rooted at `join(root, name)`) is spliced in before the next sibling;
on the tree `root{ a.txt, sub{ b.txt } }` the walk yields
`(root, [sub], [a.txt])` and then `(root/sub, [], [b.txt])`. -/
theorem C6_walk_preorder :
    (∀ (root : String) (obj : BoxItem),
      walk_from_folder_object root obj =
        (root, (collectItems obj.getItems).1, (collectItems obj.getItems).2)
          :: ((collectItems obj.getItems).1.map
                (fun sub => walk_from_folder_object (pathJoin root sub.name) sub)).flatten) ∧
    (∀ l : List BoxItem,
      collectItems l =
        (l.filter (fun i => i.isFolder), l.filter (fun i => !i.isFolder))) ∧
    (walk_from_folder_object "root"
        (BoxItem.folder "root"
          [BoxItem.file "a.txt", BoxItem.folder "sub" [BoxItem.file "b.txt"]]) =
      [("root", [BoxItem.folder "sub" [BoxItem.file "b.txt"]], [BoxItem.file "a.txt"]),
       ("root/sub", [], [BoxItem.file "b.txt"])]) := by
  refine ⟨?_, collectItems_eq_filter, ?_⟩
  · intro root obj
    rw [walk_unfold, walkSubfolders_eq_join]
  · have e0 : walkSubfolders "root/sub" [] = [] := by
      rw [walkSubfolders_eq_join]; simp
    have e1 : walk_from_folder_object "root/sub"
        (BoxItem.folder "sub" [BoxItem.file "b.txt"]) =
        [("root/sub", [], [BoxItem.file "b.txt"])] := by
      rw [walk_unfold]
      simp only [BoxItem.getItems, collectItems]
      rw [e0]
    have e2 : walkSubfolders "root" [BoxItem.folder "sub" [BoxItem.file "b.txt"]] =
        [("root/sub", [], [BoxItem.file "b.txt"])] := by
      rw [walkSubfolders_eq_join]
      simp only [List.map, List.flatten, BoxItem.name]
      rw [show pathJoin "root" "sub" = "root/sub" from rfl, e1]
      simp
    rw [walk_unfold]
    simp only [BoxItem.getItems, collectItems]
    rw [e2]

/-! ## Behaviour of `_save` -/

/-- A key-irrelevance fact at the body level: both branches of the
`if key:` in `_save` persist the same raw content. -/
theorem saveBody_key_irrel (env : Env) (bf : BoxFile)
    (p lf : String) (k : Key) (compress : Bool) (tok : String) :
    saveBody env bf p lf (some k) compress tok =
      saveBody env bf p lf none compress tok := by
  cases hbc : bf.content <;> simp [saveBody, hbc]

/-- Full case analysis of `_save = hash_retry(3)(saveBody)` as a
function of the fetch outcome. -/
theorem _save_spec (env : Env) (bf : BoxFile) (p lf : String)
    (key : Option Key) (compress : Bool) (tok : Nat → String) :
    _save env bf p lf key compress tok =
      match bf.content with
      | .ok content =>
        ([Effect.fetchContent p, Effect.createTemp (tempName (dirname lf) (tok 1)),
          Effect.writeTemp (tempName (dirname lf) (tok 1))
            (if compress then env.gzip content else content),
          Effect.fsync (tempName (dirname lf) (tok 1)),
          Effect.chmod (tempName (dirname lf) (tok 1)) 0o644,
          Effect.rename (tempName (dirname lf) (tok 1)) lf], .ok ())
      | .error (.boxHashError _ f) =>
        ([Effect.fetchContent p, Effect.removeFile f,
          Effect.fetchContent p, Effect.removeFile f,
          Effect.fetchContent p, Effect.removeFile f], .error .hashRetryError)
      | .error (.dropboxApiError isPath isNotFound) =>
        ([Effect.fetchContent p],
         if isPath && isNotFound then
           .error (.downloadError ("error downloading file " ++ p))
         else .error (.dropboxApiError isPath isNotFound))
      | .error e => ([Effect.fetchContent p], .error e) := by
  cases hbc : bf.content with
  | ok content =>
    cases key <;>
      simp [_save, hash_retry, hashRetryGo, saveBody, hbc, _savetemp]
  | error e =>
    cases e with
    | dropboxApiError isPath isNotFound =>
      cases isPath <;> cases isNotFound <;>
        cases key <;>
          simp [_save, hash_retry, hashRetryGo, saveBody, hbc]
    | boxHashError m f =>
      cases key <;>
        simp [_save, hash_retry, hashRetryGo, saveBody, hbc]
    | hashRetryError =>
      cases key <;> simp [_save, hash_retry, hashRetryGo, saveBody, hbc]
    | downloadError m =>
      cases key <;> simp [_save, hash_retry, hashRetryGo, saveBody, hbc]
    | deletionError m =>
      cases key <;> simp [_save, hash_retry, hashRetryGo, saveBody, hbc]
    | boxAPIException status =>
      cases key <;> simp [_save, hash_retry, hashRetryGo, saveBody, hbc]

/-- Filtering out a key that is absent from an association list changes
nothing. -/
theorem filterKey_eq_self_of_lookup_none (l : List (String × Bytes))
    (p : String) (h : l.lookup p = none) :
    l.filter (fun kv => kv.1 != p) = l := by
  induction l with
  | nil => rfl
  | cons kv rest ih =>
    have hk : (p == kv.1) = false := by
      cases hpk : (p == kv.1) with
      | true => simp [List.lookup, hpk] at h
      | false => rfl
    have hrest : rest.lookup p = none := by
      simpa [List.lookup, hk] using h
    have hne : (kv.1 != p) = true := by
      simp only [bne_iff_ne, ne_eq]
      intro hkp
      rw [hkp] at hk
      simp at hk
    simp [List.filter_cons, hne, ih hrest]

/-- Creating, rewriting and removing a fresh temp file restores the
filesystem exactly. -/
theorem FS.tempRound (fs : FS) (p : String) (b : Bytes)
    (h : fs.files.lookup p = none) :
    ((fs.setFile p []).setFile p b).removeFile p = fs := by
  cases fs with
  | mk files dirs =>
    simp only [FS.setFile, FS.removeFile, List.filter_cons, bne_self_eq_false,
      Bool.false_eq_true, if_false, List.filter_filter, Bool.and_self]
    simp [filterKey_eq_self_of_lookup_none files p h]

/-- **C3.** Hash-mismatch retry bound: wrapping an operation that
raises a hash-mismatch error on every attempt (it creates a temp file
and reports its name in the error) in `hash_retry(3)`, the operation is
attempted exactly 3 times; after each failed attempt the temp file
named in the error is removed, so replaying the trace against any
filesystem in which those temp names are fresh leaves the files exactly
as they were (0 temp files remain); and the wrapper finally raises
`HashRetryError`. -/
theorem C3_hash_retry_exhaustion (t : Nat → String) (bs : Nat → Bytes)
    (m : Nat → String) (fs : FS)
    (hfresh : ∀ i, fs.files.lookup (t i) = none) :
    hash_retry 3 (fun a =>
        ([Effect.createTemp (t a), Effect.writeTemp (t a) (bs a)],
         .error (.boxHashError (m a) (t a)))) =
      ([Effect.createTemp (t 1), Effect.writeTemp (t 1) (bs 1), Effect.removeFile (t 1),
        Effect.createTemp (t 2), Effect.writeTemp (t 2) (bs 2), Effect.removeFile (t 2),
        Effect.createTemp (t 3), Effect.writeTemp (t 3) (bs 3), Effect.removeFile (t 3)],
       .error .hashRetryError) ∧
    (fs.applyEffects
        [Effect.createTemp (t 1), Effect.writeTemp (t 1) (bs 1), Effect.removeFile (t 1),
         Effect.createTemp (t 2), Effect.writeTemp (t 2) (bs 2), Effect.removeFile (t 2),
         Effect.createTemp (t 3), Effect.writeTemp (t 3) (bs 3), Effect.removeFile (t 3)]).files
      = fs.files := by
  constructor
  · simp [hash_retry, hashRetryGo]
  · simp only [FS.applyEffects, List.foldl, FS.applyEffect]
    rw [FS.tempRound fs (t 1) (bs 1) (hfresh 1)]
    rw [FS.tempRound fs (t 2) (bs 2) (hfresh 2)]
    rw [FS.tempRound fs (t 3) (bs 3) (hfresh 3)]

/-- Witness for C3 at a concrete always-mismatching operation. -/
theorem C3_hash_retry_exhaustion_witness :
    (∀ i : Nat, (FS.mk [] []).files.lookup (".t" ++ toString i) = none) ∧
    hash_retry 3 (fun a =>
        ([Effect.createTemp (".t" ++ toString a), Effect.writeTemp (".t" ++ toString a) [7]],
         .error (.boxHashError "hash mismatch" (".t" ++ toString a)))) =
      ([Effect.createTemp ".t1", Effect.writeTemp ".t1" [7], Effect.removeFile ".t1",
        Effect.createTemp ".t2", Effect.writeTemp ".t2" [7], Effect.removeFile ".t2",
        Effect.createTemp ".t3", Effect.writeTemp ".t3" [7], Effect.removeFile ".t3"],
       .error .hashRetryError) ∧
    ((FS.mk [] []).applyEffects
        [Effect.createTemp ".t1", Effect.writeTemp ".t1" [7], Effect.removeFile ".t1",
         Effect.createTemp ".t2", Effect.writeTemp ".t2" [7], Effect.removeFile ".t2",
         Effect.createTemp ".t3", Effect.writeTemp ".t3" [7], Effect.removeFile ".t3"]).files
      = [] := by
  refine ⟨fun i => rfl, ?_, ?_⟩
  · have h := C3_hash_retry_exhaustion (fun a => ".t" ++ toString a)
      (fun _ => [7]) (fun _ => "hash mismatch") (FS.mk [] []) (fun i => rfl)
    simpa using h.1
  · have h := C3_hash_retry_exhaustion (fun a => ".t" ++ toString a)
      (fun _ => [7]) (fun _ => "hash mismatch") (FS.mk [] []) (fun i => rfl)
    simpa using h.2

/-- **C10.** Stored bytes are independent of the encryption key: the
whole behaviour of `_save` (its effect trace, hence every byte written,
and its result) is identical with and without a key, and every temp
write it performs carries the raw fetched content (gzip-compressed when
requested) — never the computed encryption stream. -/
theorem C10_bytes_key_independent :
    (∀ (env : Env) (bf : BoxFile) (p lf : String) (k : Key)
        (compress : Bool) (tok : Nat → String),
      _save env bf p lf (some k) compress tok =
        _save env bf p lf none compress tok) ∧
    (∀ (env : Env) (bf : BoxFile) (p lf : String) (key : Option Key)
        (compress : Bool) (tok : Nat → String) (content : Bytes)
        (q : String) (b : Bytes),
      bf.content = .ok content →
      Effect.writeTemp q b ∈ (_save env bf p lf key compress tok).1 →
      b = if compress then env.gzip content else content) := by
  constructor
  · intro env bf p lf k compress tok
    rw [_save_spec, _save_spec]
  · intro env bf p lf key compress tok content q b hbc hmem
    rw [_save_spec, hbc] at hmem
    simp only [List.mem_cons, List.not_mem_nil, or_false] at hmem
    rcases hmem with h | h | h | h | h | h <;> simp_all

/-- Witness for C10: a concrete run with a key writes the same bytes as
the keyless run, and those bytes are the raw content. -/
theorem C10_bytes_key_independent_witness :
    (_save (Env.mk (fun l => 0 :: l) (fun l _ _ => l.reverse))
        (BoxFile.mk (.ok [1, 2, 3]) (.ok ())) "r/f.txt" "out/f.txt"
        (some "passphrase") false (fun _ => "t") =
      _save (Env.mk (fun l => 0 :: l) (fun l _ _ => l.reverse))
        (BoxFile.mk (.ok [1, 2, 3]) (.ok ())) "r/f.txt" "out/f.txt"
        none false (fun _ => "t")) ∧
    (BoxFile.mk (.ok [1, 2, 3]) (.ok ()) : BoxFile).content = .ok [1, 2, 3] ∧
    Effect.writeTemp "out/.t" [1, 2, 3] ∈
      (_save (Env.mk (fun l => 0 :: l) (fun l _ _ => l.reverse))
        (BoxFile.mk (.ok [1, 2, 3]) (.ok ())) "r/f.txt" "out/f.txt"
        (some "passphrase") false (fun _ => "t")).1 ∧
    ([1, 2, 3] : Bytes) =
      if false then (Env.mk (fun l => 0 :: l) (fun l _ _ => l.reverse)).gzip [1, 2, 3]
      else [1, 2, 3] := by
  refine ⟨C10_bytes_key_independent.1 _ _ _ _ _ _ _, rfl, by decide, ?_⟩
  exact C10_bytes_key_independent.2 (Env.mk (fun l => 0 :: l) (fun l _ _ => l.reverse))
    (BoxFile.mk (.ok [1, 2, 3]) (.ok ())) "r/f.txt" "out/f.txt"
    (some "passphrase") false (fun _ => "t") [1, 2, 3] "out/.t" [1, 2, 3]
    rfl (by decide)

/-! ## Behaviour of `save` -/

/-- `save` returns immediately with no effects when the destination
already exists. -/
theorem save_skip (env : Env) (bf : BoxFile) (bpt : String × String)
    (outBase : String) (key : Option Key) (compress delete dry : Bool)
    (tok : Nat → String) (fs : FS)
    (hex : fs.pathExists (localDest outBase bpt.2 key compress) = true) :
    save env bf bpt outBase key compress delete dry tok fs = ([], .ok ()) := by
  simp [save, hex]

/-- The committed destination exists after create–write–rename. -/
theorem FS.pathExists_commit (s : FS) (n lf : String) (b : Bytes) :
    (((s.setFile n []).setFile n b).renameFile n lf).pathExists lf = true := by
  have h1 : ((s.setFile n []).setFile n b).files.lookup n = some b :=
    FS.lookup_setFile_self _ _ _
  simp [FS.renameFile, h1, FS.pathExists, FS.lookup_setFile_self]

/-- Replaying the successful `_save` trace is the create–write–rename
state transformation. -/
theorem applyEffects_commitTrace (s : FS) (p n lf : String) (b : Bytes) :
    s.applyEffects
        [Effect.fetchContent p, Effect.createTemp n, Effect.writeTemp n b,
         Effect.fsync n, Effect.chmod n 0o644, Effect.rename n lf] =
      ((s.setFile n []).setFile n b).renameFile n lf := rfl

/-- The effect trace of a non-skipped, non-dry, successful `save`. -/
theorem save_success_trace (env : Env) (bf : BoxFile) (bpt : String × String)
    (outBase : String) (key : Option Key) (compress delete : Bool)
    (tok : Nat → String) (fs : FS) (content : Bytes)
    (hex : fs.pathExists (localDest outBase bpt.2 key compress) = false)
    (hbc : bf.content = .ok content) :
    (save env bf bpt outBase key compress delete false tok fs).1 =
      (if fs.pathExists (dirname (localDest outBase bpt.2 key compress))
       then ([] : List Effect)
       else [Effect.mkdirs (dirname (localDest outBase bpt.2 key compress))])
      ++ [Effect.fetchContent (pathJoin bpt.1 bpt.2),
          Effect.createTemp
            (tempName (dirname (localDest outBase bpt.2 key compress)) (tok 1)),
          Effect.writeTemp
            (tempName (dirname (localDest outBase bpt.2 key compress)) (tok 1))
            (if compress then env.gzip content else content),
          Effect.fsync
            (tempName (dirname (localDest outBase bpt.2 key compress)) (tok 1)),
          Effect.chmod
            (tempName (dirname (localDest outBase bpt.2 key compress)) (tok 1)) 0o644,
          Effect.rename
            (tempName (dirname (localDest outBase bpt.2 key compress)) (tok 1))
            (localDest outBase bpt.2 key compress)]
      ++ (if delete then [Effect.deleteRemote (pathJoin bpt.1 bpt.2)] else []) := by
  simp only [save, hex, _save_spec, hbc, _delete]
  cases delete <;> simp

/-- A fetch failure makes a non-skipped, non-dry `save` fail. -/
theorem save_fetch_error (env : Env) (bf : BoxFile) (bpt : String × String)
    (outBase : String) (key : Option Key) (compress delete : Bool)
    (tok : Nat → String) (fs : FS) (e : PyExc)
    (hex : fs.pathExists (localDest outBase bpt.2 key compress) = false)
    (hbc : bf.content = .error e) :
    (save env bf bpt outBase key compress delete false tok fs).2 ≠ .ok () := by
  simp only [save, hex, _save_spec, hbc]
  cases e with
  | dropboxApiError isPath isNotFound =>
    cases isPath <;> cases isNotFound <;> simp
  | boxAPIException status => simp
  | boxHashError m f => simp
  | hashRetryError => simp
  | downloadError m => simp
  | deletionError m => simp

/-- **C1.** `save` is idempotent at file granularity: when the computed
local destination already exists, `save` returns at once with an empty
effect trace (no fetch, no write, no directory creation, no remote
deletion); and a second `save` with identical inputs after a successful
non-dry first call is such a no-op, because the first call committed the
destination. -/
theorem C1_save_idempotent :
    (∀ (env : Env) (bf : BoxFile) (bpt : String × String) (outBase : String)
        (key : Option Key) (compress delete dry : Bool) (tok : Nat → String) (fs : FS),
      fs.pathExists (localDest outBase bpt.2 key compress) = true →
      save env bf bpt outBase key compress delete dry tok fs = ([], .ok ())) ∧
    (∀ (env : Env) (bf : BoxFile) (bpt : String × String) (outBase : String)
        (key : Option Key) (compress delete : Bool) (tok : Nat → String) (fs : FS),
      (save env bf bpt outBase key compress delete false tok fs).2 = .ok () →
      save env bf bpt outBase key compress delete false tok
        (fs.applyEffects (save env bf bpt outBase key compress delete false tok fs).1)
        = ([], .ok ())) := by
  constructor
  · intro env bf bpt outBase key compress delete dry tok fs hex
    exact save_skip env bf bpt outBase key compress delete dry tok fs hex
  · intro env bf bpt outBase key compress delete tok fs hok
    by_cases hex : fs.pathExists (localDest outBase bpt.2 key compress) = true
    · have h1 := save_skip env bf bpt outBase key compress delete false tok fs hex
      rw [h1]
      exact save_skip env bf bpt outBase key compress delete false tok _ hex
    · have hbx : fs.pathExists (localDest outBase bpt.2 key compress) = false := by
        simpa using hex
      cases hbc : bf.content with
      | error e =>
        exact absurd hok
          (save_fetch_error env bf bpt outBase key compress delete tok fs e hbx hbc)
      | ok content =>
        apply save_skip
        rw [save_success_trace env bf bpt outBase key compress delete tok fs content hbx hbc]
        rw [FS.applyEffects_append, FS.applyEffects_append]
        rw [applyEffects_commitTrace]
        cases delete with
        | false =>
          simpa [FS.applyEffects] using
            FS.pathExists_commit (fs.applyEffects _) _ _ _
        | true =>
          simpa [FS.applyEffects, FS.applyEffect] using
            FS.pathExists_commit (fs.applyEffects _) _ _ _

/-- Witness for C1: a concrete skip on an existing destination, and a
concrete successful first call followed by a no-op second call. -/
theorem C1_save_idempotent_witness :
    ((FS.mk [("out/f.txt", [9])] []).pathExists (localDest "out" "f.txt" none false) = true ∧
      save (Env.mk (fun l => 0 :: l) (fun l _ _ => l.reverse))
        (BoxFile.mk (.ok [1, 2, 3]) (.ok ())) ("r", "f.txt") "out" none false false false
        (fun _ => "t") (FS.mk [("out/f.txt", [9])] []) = ([], .ok ())) ∧
    ((save (Env.mk (fun l => 0 :: l) (fun l _ _ => l.reverse))
        (BoxFile.mk (.ok [1, 2, 3]) (.ok ())) ("r", "f.txt") "out" none false false false
        (fun _ => "t") (FS.mk [] [])).2 = .ok () ∧
      save (Env.mk (fun l => 0 :: l) (fun l _ _ => l.reverse))
        (BoxFile.mk (.ok [1, 2, 3]) (.ok ())) ("r", "f.txt") "out" none false false false
        (fun _ => "t")
        ((FS.mk [] []).applyEffects
          (save (Env.mk (fun l => 0 :: l) (fun l _ _ => l.reverse))
            (BoxFile.mk (.ok [1, 2, 3]) (.ok ())) ("r", "f.txt") "out" none false false false
            (fun _ => "t") (FS.mk [] [])).1) = ([], .ok ())) := by
  refine ⟨⟨by decide, ?_⟩, ⟨rfl, ?_⟩⟩
  · exact C1_save_idempotent.1 _ _ _ _ _ _ _ _ _ _ (by decide)
  · exact C1_save_idempotent.2 (Env.mk (fun l => 0 :: l) (fun l _ _ => l.reverse))
      (BoxFile.mk (.ok [1, 2, 3]) (.ok ())) ("r", "f.txt") "out" none false false
      (fun _ => "t") (FS.mk [] []) rfl

/-- **C2 (counterexample).** With `dry=True`, a missing destination and
a missing parent directory, `save` does create a local directory: the
call returns the `mkdirs` effect and the replayed state has a new
directory, contradicting "no local directory is created". -/
theorem C2_dry_run_counterexample :
    save (Env.mk (fun l => 0 :: l) (fun l _ _ => l.reverse))
        (BoxFile.mk (.ok [1, 2, 3]) (.ok ())) ("r", "f.txt") "out" none false false true
        (fun _ => "t") (FS.mk [] []) = ([Effect.mkdirs "out"], .ok ()) ∧
    ((FS.mk [] []).applyEffects [Effect.mkdirs "out"]).dirs = ["out"] := by
  constructor
  · rfl
  · rfl

/-- **C2 (amended).** With `dry=True`, `save` never fetches remote
content, never creates or writes a local file, and never deletes
remotely: it succeeds, its only possible effects are directory
creations (of the destination's missing parent), and replaying its
trace leaves the set of local files unchanged. -/
theorem C2_dry_run_amended (env : Env) (bf : BoxFile) (bpt : String × String)
    (outBase : String) (key : Option Key) (compress delete : Bool)
    (tok : Nat → String) (fs : FS) :
    (save env bf bpt outBase key compress delete true tok fs).2 = .ok () ∧
    (∀ e ∈ (save env bf bpt outBase key compress delete true tok fs).1,
      ∃ d, e = Effect.mkdirs d) ∧
    (fs.applyEffects (save env bf bpt outBase key compress delete true tok fs).1).files
      = fs.files := by
  by_cases h1 : fs.pathExists (localDest outBase bpt.2 key compress) = true
  · simp [save, h1, FS.applyEffects]
  · by_cases h2 : fs.pathExists (dirname (localDest outBase bpt.2 key compress)) = true
    · simp [save, h1, h2, FS.applyEffects]
    · simp [save, h1, h2, FS.applyEffects, FS.applyEffect, FS.files_makedirs]

/-! ## Deletion gating -/

/-- With `delete=False`, `save` never issues a remote deletion. -/
theorem save_no_deleteRemote (env : Env) (bf : BoxFile) (bpt : String × String)
    (outBase : String) (key : Option Key) (compress dry : Bool)
    (tok : Nat → String) (fs : FS) (p : String) :
    Effect.deleteRemote p ∉ (save env bf bpt outBase key compress false dry tok fs).1 := by
  by_cases h1 : fs.pathExists (localDest outBase bpt.2 key compress) = true
  · simp [save, h1]
  · by_cases h2 : fs.pathExists (dirname (localDest outBase bpt.2 key compress)) = true
    all_goals cases dry with
    | true => simp [save, h1, h2]
    | false =>
      cases hbc : bf.content with
      | ok content => simp [save, h1, h2, _save_spec, hbc]
      | error e =>
        cases e with
        | dropboxApiError isPath isNotFound =>
          cases isPath <;> cases isNotFound <;> simp [save, h1, h2, _save_spec, hbc]
        | boxAPIException status => simp [save, h1, h2, _save_spec, hbc]
        | boxHashError m f => simp [save, h1, h2, _save_spec, hbc]
        | hashRetryError => simp [save, h1, h2, _save_spec, hbc]
        | downloadError m => simp [save, h1, h2, _save_spec, hbc]
        | deletionError m => simp [save, h1, h2, _save_spec, hbc]

/-- If `save` issues a remote deletion at all, that deletion is the
last effect of the trace and a rename onto the local destination
precedes it. -/
theorem save_deleteRemote_last (env : Env) (bf : BoxFile) (bpt : String × String)
    (outBase : String) (key : Option Key) (compress delete dry : Bool)
    (tok : Nat → String) (fs : FS) (p : String)
    (hmem : Effect.deleteRemote p ∈
      (save env bf bpt outBase key compress delete dry tok fs).1) :
    ∃ pre, (save env bf bpt outBase key compress delete dry tok fs).1
        = pre ++ [Effect.deleteRemote p] ∧
      ∃ src, Effect.rename src (localDest outBase bpt.2 key compress) ∈ pre := by
  by_cases h1 : fs.pathExists (localDest outBase bpt.2 key compress) = true
  · simp [save, h1] at hmem
  · by_cases h2 : fs.pathExists (dirname (localDest outBase bpt.2 key compress)) = true
    all_goals cases dry with
    | true => simp [save, h1, h2] at hmem
    | false =>
      cases hbc : bf.content with
      | ok content =>
        cases delete with
        | false => exact absurd hmem (save_no_deleteRemote _ _ _ _ _ _ _ _ _ _)
        | true =>
          have htr := save_success_trace env bf bpt outBase key compress true tok fs
            content (by simpa using h1) hbc
          rw [htr] at hmem ⊢
          have hp : p = pathJoin bpt.1 bpt.2 := by
            simp [h2] at hmem
            exact hmem
          subst hp
          refine ⟨_, rfl, ?_⟩
          exact ⟨tempName (dirname (localDest outBase bpt.2 key compress)) (tok 1), by simp⟩
      | error e =>
        cases e with
        | dropboxApiError isPath isNotFound =>
          cases isPath <;> cases isNotFound <;>
            simp [save, h1, h2, _save_spec, hbc] at hmem
        | boxAPIException status => simp [save, h1, h2, _save_spec, hbc] at hmem
        | boxHashError m f => simp [save, h1, h2, _save_spec, hbc] at hmem
        | hashRetryError => simp [save, h1, h2, _save_spec, hbc] at hmem
        | downloadError m => simp [save, h1, h2, _save_spec, hbc] at hmem
        | deletionError m => simp [save, h1, h2, _save_spec, hbc] at hmem

/-- **C7.** Deletion gating: `delete_on_success` reads `true` only when
the configured value is literally the boolean `True` (absent or
non-boolean values give `False`); with the flag off (`delete=False`)
`save` never issues a remote deletion; and whenever `save` does issue a
remote deletion it is the final effect, preceded by the rename that
commits the local save. -/
theorem C7_deletion_gating :
    (∀ (lochness : List (String × PyVal)) (moduleName : String),
      delete_on_success lochness moduleName = some true →
      configuredDeleteValue lochness moduleName = some (.pybool true)) ∧
    (∀ (env : Env) (bf : BoxFile) (bpt : String × String) (outBase : String)
        (key : Option Key) (compress dry : Bool) (tok : Nat → String)
        (fs : FS) (p : String),
      Effect.deleteRemote p ∉
        (save env bf bpt outBase key compress false dry tok fs).1) ∧
    (∀ (env : Env) (bf : BoxFile) (bpt : String × String) (outBase : String)
        (key : Option Key) (compress delete dry : Bool) (tok : Nat → String)
        (fs : FS) (p : String),
      Effect.deleteRemote p ∈
          (save env bf bpt outBase key compress delete dry tok fs).1 →
      ∃ pre, (save env bf bpt outBase key compress delete dry tok fs).1
          = pre ++ [Effect.deleteRemote p] ∧
        ∃ src, Effect.rename src (localDest outBase bpt.2 key compress) ∈ pre) := by
  refine ⟨?_, save_no_deleteRemote, save_deleteRemote_last⟩
  intro lochness moduleName h
  unfold delete_on_success at h
  unfold configuredDeleteValue
  cases hbox : dictGetD lochness "box" (.pydict []) with
  | pydict modules =>
    rw [hbox] at h
    simp only [PyVal.getD] at h
    cases hmod : dictGetD modules moduleName (.pydict []) with
    | pydict conf =>
      rw [hmod] at h
      simp only [PyVal.getD] at h
      cases hlk : conf.lookup "delete_on_success" with
      | none =>
        rw [show dictGetD conf "delete_on_success" (.pybool false) = .pybool false by
          simp [dictGetD, hlk]] at h
        simp at h
      | some v =>
        have hleaf : dictGetD conf "delete_on_success" (.pybool false) = v := by
          simp [dictGetD, hlk]
        rw [hleaf] at h
        cases v with
        | pybool b =>
          simp at h
          subst h
          simp [hmod, hlk]
        | pystr s => simp at h
        | pyint n => simp at h
        | pynone => simp at h
        | pydict d => simp at h
    | pybool b => rw [hmod] at h; simp [PyVal.getD] at h
    | pystr s => rw [hmod] at h; simp [PyVal.getD] at h
    | pyint n => rw [hmod] at h; simp [PyVal.getD] at h
    | pynone => rw [hmod] at h; simp [PyVal.getD] at h
  | pybool b => rw [hbox] at h; simp [PyVal.getD] at h
  | pystr s => rw [hbox] at h; simp [PyVal.getD] at h
  | pyint n => rw [hbox] at h; simp [PyVal.getD] at h
  | pynone => rw [hbox] at h; simp [PyVal.getD] at h

/-- Witness for C7: a configuration with a literal `True` flag, a
concrete run with `delete=False` issuing no deletion, and a concrete
run with `delete=True` whose deletion is last, after the rename. -/
theorem C7_deletion_gating_witness :
    delete_on_success
        [("box", .pydict [("mri", .pydict [("delete_on_success", .pybool true)])])]
        "mri" = some true ∧
    configuredDeleteValue
        [("box", .pydict [("mri", .pydict [("delete_on_success", .pybool true)])])]
        "mri" = some (.pybool true) ∧
    Effect.deleteRemote "r/f.txt" ∉
      (save (Env.mk (fun l => 0 :: l) (fun l _ _ => l.reverse))
        (BoxFile.mk (.ok [1, 2, 3]) (.ok ())) ("r", "f.txt") "out" none false false false
        (fun _ => "t") (FS.mk [] [])).1 ∧
    Effect.deleteRemote "r/f.txt" ∈
      (save (Env.mk (fun l => 0 :: l) (fun l _ _ => l.reverse))
        (BoxFile.mk (.ok [1, 2, 3]) (.ok ())) ("r", "f.txt") "out" none false true false
        (fun _ => "t") (FS.mk [] [])).1 ∧
    (∃ pre, (save (Env.mk (fun l => 0 :: l) (fun l _ _ => l.reverse))
        (BoxFile.mk (.ok [1, 2, 3]) (.ok ())) ("r", "f.txt") "out" none false true false
        (fun _ => "t") (FS.mk [] [])).1 = pre ++ [Effect.deleteRemote "r/f.txt"] ∧
      ∃ src, Effect.rename src (localDest "out" "f.txt" none false) ∈ pre) := by
  refine ⟨rfl, C7_deletion_gating.1 _ _ rfl,
    C7_deletion_gating.2.1 _ _ _ _ _ _ _ _ _ _, by decide, ?_⟩
  exact C7_deletion_gating.2.2 (Env.mk (fun l => 0 :: l) (fun l _ _ => l.reverse))
    (BoxFile.mk (.ok [1, 2, 3]) (.ok ())) ("r", "f.txt") "out" none false true false
    (fun _ => "t") (FS.mk [] []) "r/f.txt" (by decide)

/-! ## Atomicity of the commit -/

/-- An effect that does not touch the file at path `lf`. -/
def notTouching (lf : String) : Effect → Prop
  | .createTemp q => q ≠ lf
  | .writeTemp q _ => q ≠ lf
  | .removeFile q => q ≠ lf
  | .rename src dst => src ≠ lf ∧ dst ≠ lf
  | _ => True

theorem applyEffect_lookup_of_notTouching (fs : FS) (lf : String) (e : Effect)
    (h : notTouching lf e) :
    ((fs.applyEffect e).files.lookup lf) = fs.files.lookup lf := by
  cases e with
  | fetchContent p => rfl
  | mkdirs d => rfl
  | fsync p => rfl
  | chmod p m => rfl
  | deleteRemote p => rfl
  | createTemp q =>
    have h' : q ≠ lf := h
    exact FS.lookup_setFile_ne fs q lf [] (Ne.symm h')
  | writeTemp q b =>
    have h' : q ≠ lf := h
    exact FS.lookup_setFile_ne fs q lf b (Ne.symm h')
  | removeFile q =>
    have h' : q ≠ lf := h
    exact FS.lookup_removeFile_ne fs q lf (Ne.symm h')
  | rename src dst =>
    have h' : src ≠ lf ∧ dst ≠ lf := h
    simp only [FS.applyEffect, FS.renameFile]
    cases hlu : fs.files.lookup src with
    | none => rfl
    | some c =>
      rw [FS.lookup_setFile_ne _ dst lf c (Ne.symm h'.2),
        FS.lookup_removeFile_ne fs src lf (Ne.symm h'.1)]

theorem applyEffects_lookup_of_notTouching (fs : FS) (lf : String)
    (l : List Effect) (h : ∀ e ∈ l, notTouching lf e) :
    ((fs.applyEffects l).files.lookup lf) = fs.files.lookup lf := by
  induction l generalizing fs with
  | nil => rfl
  | cons e rest ih =>
    rw [FS.applyEffects_cons]
    rw [ih _ (fun x hx => h x (List.mem_cons_of_mem _ hx))]
    exact applyEffect_lookup_of_notTouching fs lf e (h e (List.mem_cons_self _ _))

/-- **C8.** Atomic commit: provided the OS-chosen temp names differ
from the destination and content fetch does not raise the local
hash-error class, (i) replaying any prefix of `_save`'s trace that does
not include a rename onto the destination leaves the destination's
content exactly as it was (absent stays absent) — so a fault anywhere
between fetch and rename never leaves partial bytes there; (ii) a
successful `_save` performs exactly fetch, temp create, full write,
fsync, chmod 0644, rename — the rename of the fully written, flushed,
chmod'ed temp file is the single commit point; and (iii) after the full
trace the destination holds exactly the complete persisted bytes. -/
theorem C8_atomic_commit (env : Env) (bf : BoxFile) (p lf : String)
    (key : Option Key) (compress : Bool) (tok : Nat → String)
    (htmp : ∀ a, tempName (dirname lf) (tok a) ≠ lf)
    (hnoh : ∀ m f, bf.content ≠ .error (.boxHashError m f)) :
    (∀ (pre post : List Effect) (fs : FS),
      (_save env bf p lf key compress tok).1 = pre ++ post →
      (∀ src, Effect.rename src lf ∉ pre) →
      (fs.applyEffects pre).files.lookup lf = fs.files.lookup lf) ∧
    ((_save env bf p lf key compress tok).2 = .ok () →
      ∃ content, bf.content = .ok content ∧
        (_save env bf p lf key compress tok).1 =
          [Effect.fetchContent p,
           Effect.createTemp (tempName (dirname lf) (tok 1)),
           Effect.writeTemp (tempName (dirname lf) (tok 1))
             (if compress then env.gzip content else content),
           Effect.fsync (tempName (dirname lf) (tok 1)),
           Effect.chmod (tempName (dirname lf) (tok 1)) 0o644,
           Effect.rename (tempName (dirname lf) (tok 1)) lf]) ∧
    (∀ (content : Bytes) (fs : FS),
      bf.content = .ok content →
      (fs.applyEffects (_save env bf p lf key compress tok).1).files.lookup lf
        = some (if compress then env.gzip content else content)) := by
  refine ⟨?_, ?_, ?_⟩
  · intro pre post fs htr hren
    apply applyEffects_lookup_of_notTouching
    intro e he
    have heT : e ∈ (_save env bf p lf key compress tok).1 := by
      rw [htr]; exact List.mem_append_left _ he
    cases hbc : bf.content with
    | ok content =>
      rw [_save_spec, hbc] at heT
      simp only [List.mem_cons, List.not_mem_nil, or_false] at heT
      rcases heT with rfl | rfl | rfl | rfl | rfl | rfl
      · trivial
      · exact htmp 1
      · exact htmp 1
      · trivial
      · trivial
      · exact absurd he (hren _)
    | error e' =>
      rw [_save_spec, hbc] at heT
      cases e' with
      | boxHashError m f => exact absurd hbc (hnoh m f)
      | dropboxApiError a b => simp at heT; subst heT; trivial
      | boxAPIException status => simp at heT; subst heT; trivial
      | hashRetryError => simp at heT; subst heT; trivial
      | downloadError m => simp at heT; subst heT; trivial
      | deletionError m => simp at heT; subst heT; trivial
  · intro hok
    cases hbc : bf.content with
    | ok content =>
      refine ⟨content, rfl, ?_⟩
      rw [_save_spec, hbc]
    | error e' =>
      exfalso
      rw [_save_spec, hbc] at hok
      cases e' with
      | dropboxApiError a b => cases a <;> cases b <;> simp at hok
      | boxAPIException status => simp at hok
      | boxHashError m f => simp at hok
      | hashRetryError => simp at hok
      | downloadError m => simp at hok
      | deletionError m => simp at hok
  · intro content fs hbc
    rw [_save_spec, hbc]
    rw [show (fs.applyEffects
        [Effect.fetchContent p,
         Effect.createTemp (tempName (dirname lf) (tok 1)),
         Effect.writeTemp (tempName (dirname lf) (tok 1))
           (if compress then env.gzip content else content),
         Effect.fsync (tempName (dirname lf) (tok 1)),
         Effect.chmod (tempName (dirname lf) (tok 1)) 0o644,
         Effect.rename (tempName (dirname lf) (tok 1)) lf]) =
      (((fs.setFile (tempName (dirname lf) (tok 1)) []).setFile
          (tempName (dirname lf) (tok 1))
          (if compress then env.gzip content else content)).renameFile
        (tempName (dirname lf) (tok 1)) lf) from rfl]
    have h1 := FS.lookup_setFile_self (fs.setFile (tempName (dirname lf) (tok 1)) [])
      (tempName (dirname lf) (tok 1)) (if compress then env.gzip content else content)
    simp [FS.renameFile, h1, FS.lookup_setFile_self]

/-- Witness for C8 at a concrete download. -/
theorem C8_atomic_commit_witness :
    (((FS.mk [] []).applyEffects
        [Effect.fetchContent "r/f.txt", Effect.createTemp "out/.t",
         Effect.writeTemp "out/.t" [1, 2, 3], Effect.fsync "out/.t",
         Effect.chmod "out/.t" 0o644]).files.lookup "out/f.txt"
      = (FS.mk [] []).files.lookup "out/f.txt") ∧
    (∃ content, (BoxFile.mk (.ok [1, 2, 3]) (.ok ()) : BoxFile).content = .ok content ∧
      (_save (Env.mk (fun l => 0 :: l) (fun l _ _ => l.reverse))
          (BoxFile.mk (.ok [1, 2, 3]) (.ok ())) "r/f.txt" "out/f.txt" none false
          (fun _ => "t")).1 =
        [Effect.fetchContent "r/f.txt",
         Effect.createTemp (tempName (dirname "out/f.txt") "t"),
         Effect.writeTemp (tempName (dirname "out/f.txt") "t")
           (if false then (Env.mk (fun l => 0 :: l) (fun l _ _ => l.reverse)).gzip content
            else content),
         Effect.fsync (tempName (dirname "out/f.txt") "t"),
         Effect.chmod (tempName (dirname "out/f.txt") "t") 0o644,
         Effect.rename (tempName (dirname "out/f.txt") "t") "out/f.txt"]) ∧
    (((FS.mk [] []).applyEffects
        (_save (Env.mk (fun l => 0 :: l) (fun l _ _ => l.reverse))
          (BoxFile.mk (.ok [1, 2, 3]) (.ok ())) "r/f.txt" "out/f.txt" none false
          (fun _ => "t")).1).files.lookup "out/f.txt"
      = some [1, 2, 3]) := by
  have h := C8_atomic_commit (Env.mk (fun l => 0 :: l) (fun l _ _ => l.reverse))
    (BoxFile.mk (.ok [1, 2, 3]) (.ok ())) "r/f.txt" "out/f.txt" none false
    (fun _ => "t")
    (by intro a; show tempName (dirname "out/f.txt") "t" ≠ "out/f.txt"; decide)
    (fun m f hx => by cases hx)
  refine ⟨?_, h.2.1 rfl, ?_⟩
  · exact h.1
      [Effect.fetchContent "r/f.txt", Effect.createTemp "out/.t",
       Effect.writeTemp "out/.t" [1, 2, 3], Effect.fsync "out/.t",
       Effect.chmod "out/.t" 0o644]
      [Effect.rename "out/.t" "out/f.txt"] (FS.mk [] []) rfl
      (fun src hsrc => by simp at hsrc)
  · have h3 := h.2.2 [1, 2, 3] (FS.mk [] []) rfl
    simpa using h3

/-! ## The dropbox/boxsdk exception mismatch -/

/-- **C4 (failing input).** The module's type annotations and calls are
box-SDK objects, whose not-found error on `.content()` is
`boxsdk.BoxAPIException(404)` — but `_save` catches only
`dropbox.exceptions.ApiError`.  Evaluating `save` at a fetch that
raises `BoxAPIException(404)` shows the exception propagating out of
`save` unchanged, not translated into a DownloadError naming the
remote path as the claim requires. -/
theorem C4_notfound_translation_divergence :
    (save (Env.mk (fun l => 0 :: l) (fun l _ _ => l.reverse))
        (BoxFile.mk (.error (.boxAPIException 404)) (.ok ())) ("r", "f.txt") "out"
        none false false false (fun _ => "t") (FS.mk [] [])).2
      = .error (.boxAPIException 404) := rfl

/-- **C9 (failing input).** `_delete` catches only
`dropbox.exceptions.ApiError`, which the box-SDK `.delete()` call never
raises: a `boxsdk.BoxAPIException(404)` from the provider's delete
propagates unchanged instead of becoming a DeletionError naming the
remote path.  (The non-rollback half of the claim does hold: `_delete`
performs no local filesystem effect whatsoever, so the committed local
file is untouched.) -/
theorem C9_delete_translation_divergence :
    _delete (BoxFile.mk (.ok [1, 2, 3]) (.error (.boxAPIException 404))) "r/f.txt"
      = ([Effect.deleteRemote "r/f.txt"], .error (.boxAPIException 404)) ∧
    (∀ (bf : BoxFile) (p : String) (fs : FS),
      fs.applyEffects (_delete bf p).1 = fs) := by
  exact ⟨rfl, fun bf p fs => rfl⟩

/-- Witness for the amended C2 at a concrete dry run. -/
theorem C2_dry_run_amended_witness :
    (save (Env.mk (fun l => 0 :: l) (fun l _ _ => l.reverse))
        (BoxFile.mk (.ok [1, 2, 3]) (.ok ())) ("r", "f.txt") "out" none false false true
        (fun _ => "t") (FS.mk [] [])).2 = .ok () ∧
    (∃ d, Effect.mkdirs "out" = Effect.mkdirs d) ∧
    ((FS.mk [] []).applyEffects
        (save (Env.mk (fun l => 0 :: l) (fun l _ _ => l.reverse))
          (BoxFile.mk (.ok [1, 2, 3]) (.ok ())) ("r", "f.txt") "out" none false false true
          (fun _ => "t") (FS.mk [] [])).1).files = (FS.mk [] []).files := by
  have h := C2_dry_run_amended (Env.mk (fun l => 0 :: l) (fun l _ _ => l.reverse))
    (BoxFile.mk (.ok [1, 2, 3]) (.ok ())) ("r", "f.txt") "out" none false false
    (fun _ => "t") (FS.mk [] [])
  exact ⟨h.1, h.2.1 (Effect.mkdirs "out") (by decide), h.2.2⟩
